import Mathlib

/-!
Verification of the vivid-story pipeline (src/vivid-story/app/).

Shallow embedding conventions:
* Python strings are `List Char`; Python string methods (`strip`, `split`,
  `" ".join`) are re-implemented over `List Char` restricted to ASCII
  whitespace (the inputs of interest are ASCII).
* The regular-expression scans in `ai_logic.py` are embedded as explicit
  fuel-based scanners that reproduce Python `re` semantics (leftmost,
  non-overlapping matches; greedy `\s*`/`\s+`, lazy content up to the
  lookahead) for the two concrete patterns the code uses.
* External back-ends (text, image, speech APIs, the filesystem) are oracle
  parameters: each embedded function takes the outcome of the call it would
  make (`Except` = raised exception vs. returned value).
* `async` plays no role in the live endpoint's control flow (the stage-2
  loop awaits each page before the next), so the event generator is a pure
  function from its oracle environment to the emitted event list.
-/

namespace VividStory

/-- Python `\s` / `str.strip` whitespace, ASCII fragment. -/
def pyIsSpace (c : Char) : Bool :=
  c == ' ' || c == '\t' || c == '\n' || c == '\r' || c == '\x0b' || c == '\x0c'

/-- Python `str.strip()` (ASCII whitespace): drop leading and trailing whitespace. -/
def pyStrip (cs : List Char) : List Char :=
  ((cs.dropWhile pyIsSpace).reverse.dropWhile pyIsSpace).reverse

/-- Python `str.split('\n')`: split at every newline, keeping empty pieces. -/
def splitOnNL : List Char → List (List Char)
  | [] => [[]]
  | c :: rest =>
    if c = '\n' then [] :: splitOnNL rest
    else
      match splitOnNL rest with
      | [] => [[c]]
      | w :: ws => (c :: w) :: ws

/-- Helper for Python `str.split()` (no separator): chop the string into
maximal whitespace-free words, dropping the whitespace.  Fuel-based so that
it reduces definitionally; `fuel = cs.length` steps always suffice because
every step strictly shortens the list. -/
def pyWordsAux : Nat → List Char → List (List Char)
  | 0, _ => []
  | _ + 1, [] => []
  | fuel + 1, c :: rest =>
    if pyIsSpace c then pyWordsAux fuel rest
    else
      (c :: rest).takeWhile (fun d => !pyIsSpace d) ::
        pyWordsAux fuel ((c :: rest).dropWhile (fun d => !pyIsSpace d))

/-- Python `str.split()`. -/
def pyWords (cs : List Char) : List (List Char) :=
  pyWordsAux cs.length cs

/-- Python `" ".join(ws)`. -/
def joinWords : List (List Char) → List Char
  | [] => []
  | [w] => w
  | w :: ws => w ++ ' ' :: joinWords ws

/-- `" ".join(content.split())` — the whitespace normalization applied to
each page's text in `story_to_pages_json` (ai_logic.py line 105). -/
def normalizeWS (cs : List Char) : List Char :=
  joinWords (pyWords cs)

/-- The spec-side property "whitespace-normalized": no leading whitespace,
no trailing whitespace, and no two adjacent whitespace characters (hence in
particular no double spaces). -/
def WSNormalized (t : List Char) : Prop :=
  (∀ c ∈ t.head?, pyIsSpace c = false) ∧
  (∀ c ∈ t.getLast?, pyIsSpace c = false) ∧
  List.Chain' (fun a b => ¬(pyIsSpace a = true ∧ pyIsSpace b = true)) t

/-- One parsed page, as built by `story_to_pages_json`:
`{"page": int(page_num), "text": cleaned_content}`. -/
structure PageT where
  page : Nat
  text : List Char
deriving DecidableEq, Repr

/-! ## ai_logic.py — extract_final_story

The regex is `Page\s*1:`.  `\s*` is greedy and whitespace never overlaps the
required `1`, so the pattern matches at position `i` exactly when `"Page"`
stands at `i` and, after the maximal whitespace run following it, `"1:"`
follows.  -/

/-- Does `Page\s*1:` match at position `i`? (ai_logic.py line 85) -/
def markerAtB (cs : List Char) (i : Nat) : Bool :=
  ((cs.drop i).take 4 == "Page".data) &&
  (((cs.drop (i + 4)).dropWhile pyIsSpace).take 2 == ['1', ':'])

/-- Length of the whitespace run starting a list. -/
def wsRunLen (cs : List Char) : Nat :=
  (cs.takeWhile pyIsSpace).length

/-- Length of the `Page\s*1:` match starting at `i` (when it matches). -/
def markerLen (cs : List Char) (i : Nat) : Nat :=
  6 + wsRunLen (cs.drop (i + 4))

/-- `re.finditer(r"Page\s*1:", text)`: scan left to right, record each match
start, resume after the matched span.  `fuel = cs.length + 1` suffices since
the position strictly increases at every step. -/
def finditerAux (cs : List Char) : Nat → Nat → List Nat
  | 0, _ => []
  | fuel + 1, i =>
    if i < cs.length then
      if markerAtB cs i then i :: finditerAux cs fuel (i + markerLen cs i)
      else finditerAux cs fuel (i + 1)
    else []

/-- Start positions of all `Page\s*1:` matches. -/
def markerStarts (cs : List Char) : List Nat :=
  finditerAux cs (cs.length + 1) 0

/-- `extract_final_story` (ai_logic.py lines 80-90): take the suffix from
the start of the LAST `Page\s*1:` match and strip it; `None` when the
pattern never matches. -/
def extract_final_story (cs : List Char) : Option (List Char) :=
  match (markerStarts cs).getLast? with
  | none => none
  | some i => some (pyStrip (cs.drop i))

/-! ## ai_logic.py — story_to_pages_json

The findall pattern is `Page\s+(\d+):\s*(.*?)(?=\nPage\s+\d+:|\Z)` with
`re.DOTALL`.  `\s+` and `(\d+)` are greedy with disjoint alphabets, so the
prefix `Page\s+(\d+):` matches deterministically; the trailing
`\s*(.*?)(?=...)` always succeeds (the `\Z` branch of the lookahead matches
at end of input), so no backtracking into `\s*` ever occurs: the content
starts after the maximal whitespace run following the colon and ends at the
first position from there at which `\nPage\s+\d+:` matches, or at end of
input. -/

/-- Does `Page\s+\d+:` match at position `i`? -/
def pageMarkerAtB (cs : List Char) (i : Nat) : Bool :=
  ((cs.drop i).take 4 == "Page".data) &&
  (let r1 := cs.drop (i + 4)
   let w := r1.takeWhile pyIsSpace
   decide (w ≠ []) &&
     (let r2 := r1.dropWhile pyIsSpace
      let d := r2.takeWhile Char.isDigit
      decide (d ≠ []) && ((r2.drop d.length).take 1 == [':'])))

/-- Digits of the decimal numeral at the marker at `i` (Python
`(\d+)` capture, then `int(...)`). -/
def markerDigits (cs : List Char) (i : Nat) : List Char :=
  ((cs.drop (i + 4)).dropWhile pyIsSpace).takeWhile Char.isDigit

/-- Python `int` on a digit string. -/
def digitsToNat (ds : List Char) : Nat :=
  ds.foldl (fun a c => a * 10 + (c.toNat - '0'.toNat)) 0

/-- Start of the lazy content group for the marker matching at `i`:
after `Page`, the whitespace run, the digits, the colon, and the greedy
`\s*`. -/
def contentStart (cs : List Char) (i : Nat) : Nat :=
  let afterColon :=
    i + 4 + wsRunLen (cs.drop (i + 4)) + (markerDigits cs i).length + 1
  afterColon + wsRunLen (cs.drop afterColon)

/-- End of the lazy content group: first `q ≥ start` at which the lookahead
`\nPage\s+\d+:` matches, else end of input (`\Z`). -/
def contentEndAux (cs : List Char) : Nat → Nat → Nat
  | 0, q => q
  | fuel + 1, q =>
    if q < cs.length then
      if cs.getD q ' ' == '\n' && pageMarkerAtB cs (q + 1) then q
      else contentEndAux cs fuel (q + 1)
    else cs.length

def contentEnd (cs : List Char) (start : Nat) : Nat :=
  contentEndAux cs (cs.length + 1) start

/-- `re.findall(r"Page\s+(\d+):\s*(.*?)(?=\nPage\s+\d+:|\Z)", s, re.DOTALL)`:
left-to-right non-overlapping scan; each match yields the captured ordinal
digits and the content slice, and scanning resumes at the content's end (the
lookahead is not consumed). -/
def findAllAux (cs : List Char) : Nat → Nat → List (Nat × List Char)
  | 0, _ => []
  | fuel + 1, i =>
    if i < cs.length then
      if pageMarkerAtB cs i then
        let s := contentStart cs i
        let e := contentEnd cs s
        (digitsToNat (markerDigits cs i), (cs.drop s).take (e - s)) ::
          findAllAux cs fuel e
      else findAllAux cs fuel (i + 1)
    else []

/-- `story_to_pages_json` (ai_logic.py lines 92-111). -/
def story_to_pages_json (story_text : List Char) : List PageT :=
  (findAllAux story_text (story_text.length + 1) 0).map
    (fun m => { page := m.1, text := normalizeWS m.2 })

/-- `generate_full_story` (ai_logic.py lines 113-117), as a function of the
raw back-end response text.  When `extract_final_story` returns `None`,
Python goes on to call `re.findall(pattern, None)`, which raises
`TypeError`; that raised exception is the `.error` case. -/
def generate_full_story (raw : List Char) : Except (List Char) (List PageT) :=
  match extract_final_story raw with
  | none => .error "TypeError: expected string or bytes-like object".data
  | some s => .ok (story_to_pages_json s)

/-! ## image_gen.py — simple_split_story -/

/-- The non-blank stripped lines of `story.strip()` (image_gen.py line 185):
`[line.strip() for line in story.strip().split('\n') if line.strip()]`. -/
def story_lines (story : List Char) : List (List Char) :=
  ((splitOnNL (pyStrip story)).map pyStrip).filter (fun l => decide (l ≠ []))

/-- `simple_split_story` (image_gen.py lines 172-193).  Python's
`lines * k` is `k` concatenated copies, and
`lines * (num_scenes // len(lines) + 1) if lines else ["A beautiful scene"]`
conditions on `lines` being non-empty. -/
def simple_split_story (story : List Char) (num_scenes : Nat) : List (List Char) :=
  if num_scenes ≤ (story_lines story).length then
    (story_lines story).take num_scenes
  else
    (if story_lines story = [] then ["A beautiful scene".data]
     else
       List.flatten (List.replicate
         (num_scenes / (story_lines story).length + 1) (story_lines story))).take
      num_scenes

/-! ## image_gen.py — call_dedalus_api (retry wrapper) -/

/-- The image back-end's response body, as far as the code reads it. -/
structure ImgData where
  b64_json : Option (List Char)
  url : Option (List Char)
  revised_prompt : Option (List Char)
deriving DecidableEq

structure ImgResp where
  data : List ImgData
deriving DecidableEq

/-- Outcome of one HTTP attempt inside `call_dedalus_api`. -/
inductive ApiAttempt where
  | ok (resp : ImgResp)
  | status429
  | status401
  | statusOther (code : Nat) (body : List Char)
  | timeout
  | requestError (msg : List Char)

def MAX_RETRIES : Nat := 3
def RETRY_DELAY : Nat := 2

/-- The retry loop of `call_dedalus_api` (image_gen.py lines 94-134),
driven by the outcome of each attempt.  Returns the result (`.error` = a
raised exception, carrying its message) together with the list of
`asyncio.sleep` durations performed, in order.  The loop body for attempt
`attempt` (0-based, `range(MAX_RETRIES)`):
* 200 → return the response;
* 429 → sleep `RETRY_DELAY * 2 ** attempt` and continue (even on the last
  attempt, after which the loop ends and the final `raise` fires);
* 401 → raise `ValueError` immediately;
* other status → on a non-final attempt sleep `RETRY_DELAY` and continue,
  else raise;
* timeout / request error → same shape as "other status". -/
def call_dedalus_aux (outcomes : Nat → ApiAttempt) :
    Nat → Nat → Except (List Char) ImgResp × List Nat
  | 0, _ => (.error "Failed to generate image after multiple retries".data, [])
  | fuel + 1, attempt =>
    match outcomes attempt with
    | .ok r => (.ok r, [])
    | .status429 =>
      let rec' := call_dedalus_aux outcomes fuel (attempt + 1)
      (rec'.1, RETRY_DELAY * 2 ^ attempt :: rec'.2)
    | .status401 => (.error "Invalid API key. Check DEDALUS_API_KEY.".data, [])
    | .statusOther code body =>
      if attempt < MAX_RETRIES - 1 then
        let rec' := call_dedalus_aux outcomes fuel (attempt + 1)
        (rec'.1, RETRY_DELAY :: rec'.2)
      else
        (.error ("API error ".data ++ (Nat.repr code).data ++ ": ".data ++ body), [])
    | .timeout =>
      if attempt < MAX_RETRIES - 1 then
        let rec' := call_dedalus_aux outcomes fuel (attempt + 1)
        (rec'.1, RETRY_DELAY :: rec'.2)
      else (.error "API request timed out after multiple retries".data, [])
    | .requestError msg =>
      if attempt < MAX_RETRIES - 1 then
        let rec' := call_dedalus_aux outcomes fuel (attempt + 1)
        (rec'.1, RETRY_DELAY :: rec'.2)
      else (.error ("API request failed: ".data ++ msg), [])

def call_dedalus_api (outcomes : Nat → ApiAttempt) :
    Except (List Char) ImgResp × List Nat :=
  call_dedalus_aux outcomes MAX_RETRIES 0

/-! ## image_gen.py — master prompt and per-page image -/

def BASE_ART_STYLE : List Char :=
  "Cute, hand-drawn children’s picture-book illustration with a soft crayon-like texture, warm and kid-friendly, no text.".data

/-- `generate_master_prompt` (image_gen.py lines 196-216), as a function of
the API response when the call returns.  When `call_dedalus_api` raises, the
exception propagates out of `generate_master_prompt` unhandled (there is no
try/except in it); that case is handled at the caller, in the event
generator below.  `(response.get("data") or [{}])[0].get("revised_prompt", "")`
is the head's `revised_prompt` (or `""` when `data` is empty), and an empty
`revised` is replaced by the initial prompt. -/
def generate_master_prompt (user_input : List Char) (resp : ImgResp) : List Char :=
  let initial_prompt := BASE_ART_STYLE ++ ' ' :: user_input
  let revised :=
    ((resp.data.headD ⟨none, none, none⟩).revised_prompt).getD []
  if revised = [] then initial_prompt else revised

/-- `generate_image` (image_gen.py lines 283-347): the whole body is inside
`try`, and the `except` returns `""`.  `apiO` is the outcome of its
`call_dedalus_api` call; `saveRes` is what `save_base64_image` returns when
invoked (that function catches its own errors and returns `""` then). -/
def generate_image (apiO : Except (List Char) ImgResp) (saveRes : List Char) :
    List Char :=
  match apiO with
  | .error _ => []
  | .ok resp =>
    match resp.data with
    | [] => []        -- `raise` inside try → caught → return ""
    | d :: _ =>
      if d.b64_json.isSome then saveRes
      else
        match d.url with
        | some u => u
        | none => []  -- `raise` inside try → caught → return ""

/-- `generate_image_for_page` (image_gen.py lines 440-504): the whole body
is inside `try` with `except` returning `""`.  With a master prompt, it
calls the API directly (DALL-E 2 path); without, it delegates to
`generate_image` (which itself never raises). -/
def generate_image_for_page (page : PageT) (master_prompt : Option (List Char))
    (apiO : Except (List Char) ImgResp) (saveRes : List Char) : List Char :=
  if page.text = [] then []
  else
    match master_prompt with
    | some _ =>
      match apiO with
      | .error _ => []        -- raised by call_dedalus_api → caught → ""
      | .ok resp =>
        match resp.data with
        | [] => []
        | d :: _ =>
          if d.b64_json.isSome then saveRes
          else
            match d.url with
            | some u => u
            | none => []
    | none => generate_image apiO saveRes

/-! ## media_gen.py -/

def VOICE_IDS : List (List Char × List Char) :=
  [("default".data, "XJ2fW4ybq7HouelYYGcL".data)]

/-- `VOICE_IDS["default"]`. -/
def voice_ids_default : List Char := "XJ2fW4ybq7HouelYYGcL".data

/-- `VOICE_IDS.get(voice, VOICE_IDS["default"])` (media_gen.py line 98). -/
def resolve_voice_id (voice : List Char) : List Char :=
  match VOICE_IDS.lookup voice with
  | some v => v
  | none => voice_ids_default

/-- `generate_audio_for_page` (media_gen.py lines 90-100).  `tts text
voice_id` is the outcome of `generate_story_audio` (which catches every
exception internally and returns `None` then — modeled as `Option`).  The
returned flag records whether the text-to-speech back-end was invoked. -/
def generate_audio_for_page (page : PageT) (voice : List Char)
    (tts : List Char → List Char → Option (List Char)) : List Char × Bool :=
  let page_text := page.text
  if page_text = [] then ([], false)
  else
    let voice_id := resolve_voice_id voice
    let path := tts page_text voice_id
    (path.getD [], true)

/-! ## main.py — streaming endpoint -/

/-- `_to_public_media_url` (main.py lines 31-41).  `baseUrl` is
`API_BASE_URL` (already `rstrip("/")`-ed by the module initialization). -/
def to_public_media_url (baseUrl : List Char) (relative_path : List Char) :
    List Char :=
  if pyStrip relative_path = [] then []
  else if "http://".data.isPrefixOf relative_path
       || "https://".data.isPrefixOf relative_path then relative_path
  else if baseUrl ≠ [] then
    -- replace("data/", "", 1) under the startswith("data/") guard removes
    -- exactly the 5-character prefix
    baseUrl ++ "/api/files/".data ++
      (if "data/".data.isPrefixOf relative_path then relative_path.drop 5
       else relative_path)
  else relative_path

/-- The scene payload dict built at main.py lines 349-355. -/
structure SceneResult where
  scene_index : Int
  page : Nat
  scene_text : List Char
  image_url : List Char
  audio_url : List Char
deriving DecidableEq

/-- One SSE event.  `data: {json}\n\n` framing and JSON encoding are
injective on these payloads, so events are modeled by their payloads. -/
inductive Event where
  | story (pages : List PageT)
  | scene (s : SceneResult)
  | complete
  | error (msg : List Char)
deriving DecidableEq

/-- The per-page body of the stage-2 loop (main.py lines 336-357), after
the two awaited calls: `asyncio.gather(..., return_exceptions=True)`
returns either each coroutine's value or its exception (never raising), the
`isinstance` checks turn exceptions into `""`, and the scene dict is built.
Everything in this body is total, so the `except` branch at lines 358-360
is unreachable; the loop always yields exactly one `scene` event per
processed page. -/
def process_page_step (baseUrl : List Char) (page : PageT)
    (imageRes audioRes : Except (List Char) (List Char)) : SceneResult :=
  let page_num := page.page
  let page_text := page.text
  let image_url := match imageRes with | .error _ => [] | .ok s => s
  let audio_url := match audioRes with | .error _ => [] | .ok s => s
  { scene_index := (page_num : Int) - 1
    page := page_num
    scene_text := page_text
    image_url := to_public_media_url baseUrl image_url
    audio_url := to_public_media_url baseUrl audio_url }

/-- Oracle environment for one run of the streaming generator: the outcome
of every external interaction it may perform.  `imgRes mp i` / `audRes i`
are the `asyncio.gather` results for page position `i` (counting from 0 in
`pages_to_process`), i.e. the value returned by `generate_image_for_page(
page, master_prompt=mp)` resp. `generate_audio_for_page(page, voice)`, or
the exception either one would be resolved to. -/
structure StreamEnv where
  stage1 : Except (List Char) (List PageT)
  use_style_consistency : Bool
  masterApi : Except (List Char) ImgResp
  num_images : Nat
  imgRes : Option (List Char) → Nat → Except (List Char) (List Char)
  audRes : Nat → Except (List Char) (List Char)
  baseUrl : List Char
  prompt : List Char

/-- `master_input` (main.py lines 313-315). -/
def master_input (prompt : List Char) (story_pages : List PageT) : List Char :=
  match story_pages.head? with
  | some p =>
    if p.text ≠ [] then
      prompt ++ ". First scene: ".data ++ p.text.take 200
    else prompt
  | none => prompt

/-- The scene events of the stage-2 loop, in loop order. -/
def scene_events (env : StreamEnv) (mp : Option (List Char))
    (pages_to_process : List PageT) : List Event :=
  pages_to_process.enum.map
    (fun x => Event.scene
      (process_page_step env.baseUrl x.2 (env.imgRes mp x.1) (env.audRes x.1)))

/-- `event_generator` (main.py lines 276-374), as the list of events it
yields.  Control flow, faithfully:
* an exception from `generate_story_pages` reaches the outer
  `except` (line 372): a single `error` event;
* an empty page list: a single `error` event, then `return`;
* otherwise one `story` event; then, if `use_style_consistency`, the
  master-style call: an exception from `generate_master_prompt` is NOT
  caught at line 316 and reaches the outer `except`, yielding an `error`
  event and terminating the generator — the `else` fallback at line 320
  only triggers on a falsy return value;
* then the stage-2 `for` loop over `story_pages[:num_images]` in list
  order, one `scene` event per page; then one `complete` event. -/
def event_generator (env : StreamEnv) : List Event :=
  match env.stage1 with
  | .error e => [Event.error e]
  | .ok story_pages =>
    if story_pages = [] then [Event.error "Story generation failed".data]
    else
      Event.story story_pages ::
      (match (if env.use_style_consistency then
                env.masterApi.map (fun resp =>
                  some (generate_master_prompt
                    (master_input env.prompt story_pages) resp))
              else .ok none : Except (List Char) (Option (List Char))) with
       | .error e => [Event.error e]
       | .ok masterOpt =>
         let master_prompt :=
           match masterOpt with
           | some r => if r = [] then none else some r
           | none => none
         scene_events env master_prompt (story_pages.take env.num_images) ++
           [Event.complete])

/-- The page indices carried by the `scene` events, in emission order. -/
def scenePages (evs : List Event) : List Nat :=
  evs.filterMap (fun e => match e with | .scene s => some s.page | _ => none)

def countStory (evs : List Event) : Nat :=
  evs.countP (fun e => match e with | .story _ => true | _ => false)

def countScene (evs : List Event) : Nat :=
  evs.countP (fun e => match e with | .scene _ => true | _ => false)

def countComplete (evs : List Event) : Nat :=
  evs.countP (fun e => match e with | .complete => true | _ => false)

def countError (evs : List Event) : Nat :=
  evs.countP (fun e => match e with | .error _ => true | _ => false)

/-- "The master step does not abort": either style consistency is off, or
the one-time master-style call returned. -/
def MasterOk (env : StreamEnv) : Prop :=
  env.use_style_consistency = true → ∃ r, env.masterApi = .ok r

/-! ## Properties of the whitespace normalization -/

theorem mem_takeWhile_pred {p : Char → Bool} :
    ∀ (l : List Char) (x : Char), x ∈ l.takeWhile p → p x = true := by
  intro l
  induction l with
  | nil => intro x hx; simp [List.takeWhile] at hx
  | cons a t ih =>
    intro x hx
    rw [List.takeWhile_cons] at hx
    by_cases ha : p a
    · rw [if_pos ha] at hx
      rcases List.mem_cons.mp hx with h | h
      · subst h; exact ha
      · exact ih x h
    · rw [if_neg ha] at hx; simp at hx

theorem pyWordsAux_sound : ∀ (fuel : Nat) (cs w : List Char),
    w ∈ pyWordsAux fuel cs → w ≠ [] ∧ ∀ c ∈ w, pyIsSpace c = false := by
  intro fuel
  induction fuel with
  | zero => intro cs w h; simp [pyWordsAux] at h
  | succ n ih =>
    intro cs w h
    match cs with
    | [] => simp [pyWordsAux] at h
    | c :: rest =>
      rw [pyWordsAux] at h
      by_cases hc : pyIsSpace c
      · rw [if_pos hc] at h; exact ih _ _ h
      · rw [if_neg hc] at h
        rcases List.mem_cons.mp h with h1 | h2
        · subst h1
          refine ⟨by simp [List.takeWhile_cons, hc], ?_⟩
          intro x hx
          have := mem_takeWhile_pred _ x hx
          simpa using this
        · exact ih _ _ h2

theorem pyWords_sound (cs w : List Char) (h : w ∈ pyWords cs) :
    w ≠ [] ∧ ∀ c ∈ w, pyIsSpace c = false :=
  pyWordsAux_sound _ _ _ h

theorem chain'_of_no_space (w : List Char)
    (hw : ∀ c ∈ w, pyIsSpace c = false) :
    List.Chain' (fun a b => ¬(pyIsSpace a = true ∧ pyIsSpace b = true)) w := by
  induction w with
  | nil => simp
  | cons a t ih =>
    cases t with
    | nil => simp
    | cons b t2 =>
      rw [List.chain'_cons]
      constructor
      · intro hab
        have := hw a (by simp)
        rw [this] at hab
        exact absurd hab.1 (by simp)
      · exact ih (fun c hc => hw c (List.mem_cons_of_mem _ hc))

theorem joinWords_ne_nil (w : List Char) (ws : List (List Char))
    (hw : w ≠ []) : joinWords (w :: ws) ≠ [] := by
  cases ws with
  | nil => simpa [joinWords]
  | cons w2 ws2 => simp [joinWords]

theorem joinWords_head? (w : List Char) (ws : List (List Char))
    (hw : w ≠ []) : (joinWords (w :: ws)).head? = w.head? := by
  obtain ⟨c, t, rfl⟩ := List.exists_cons_of_ne_nil hw
  cases ws with
  | nil => rfl
  | cons w2 ws2 => rfl

theorem joinWords_normalized : ∀ ws : List (List Char),
    (∀ w ∈ ws, w ≠ [] ∧ ∀ c ∈ w, pyIsSpace c = false) →
    WSNormalized (joinWords ws) := by
  intro ws
  induction ws with
  | nil => intro _; exact ⟨by simp [joinWords], by simp [joinWords], by simp [joinWords]⟩
  | cons w tail ih =>
    intro h
    obtain ⟨hw_ne, hw_sp⟩ := h w (by simp)
    cases tail with
    | nil =>
      refine ⟨?_, ?_, chain'_of_no_space w hw_sp⟩
      · intro c hc
        exact hw_sp c (List.mem_of_mem_head? hc)
      · intro c hc
        exact hw_sp c (List.mem_of_mem_getLast? hc)
    | cons w2 ws2 =>
      have htail : ∀ u ∈ w2 :: ws2, u ≠ [] ∧ ∀ c ∈ u, pyIsSpace c = false :=
        fun u hu => h u (List.mem_cons_of_mem _ hu)
      obtain ⟨ihh, ihl, ihc⟩ := ih htail
      have hJne : joinWords (w2 :: ws2) ≠ [] :=
        joinWords_ne_nil w2 ws2 (htail w2 (by simp)).1
      have hJ : joinWords (w :: w2 :: ws2)
          = w ++ ' ' :: joinWords (w2 :: ws2) := rfl
      rw [hJ]
      refine ⟨?_, ?_, ?_⟩
      · intro c hc
        have hh : (w ++ ' ' :: joinWords (w2 :: ws2)).head? = w.head? := by
          obtain ⟨a, t, rfl⟩ := List.exists_cons_of_ne_nil hw_ne
          rfl
        rw [hh] at hc
        exact hw_sp c (List.mem_of_mem_head? hc)
      · intro c hc
        obtain ⟨z, hz⟩ := Option.ne_none_iff_exists'.mp
          (fun hn => hJne (List.getLast?_eq_none_iff.mp hn))
        have e1 : (' ' :: joinWords (w2 :: ws2)).getLast? = some z := by
          have e0 : (' ' :: joinWords (w2 :: ws2))
              = [' '] ++ joinWords (w2 :: ws2) := rfl
          rw [e0, List.getLast?_append, hz]
          rfl
        have h1 : (w ++ ' ' :: joinWords (w2 :: ws2)).getLast? = some z := by
          rw [List.getLast?_append, e1]
          rfl
        rw [h1] at hc
        have hcz : c = z := by
          have := hc
          simp only [Option.mem_def, Option.some.injEq] at this
          exact this.symm
        subst hcz
        exact ihl c (by rw [hz]; simp)
      · rw [List.chain'_append]
        refine ⟨chain'_of_no_space w hw_sp, ?_, ?_⟩
        · rw [List.chain'_cons']
          refine ⟨?_, ihc⟩
          intro y hy hcontra
          have : pyIsSpace y = false := ihh y hy
          rw [this] at hcontra
          exact absurd hcontra.2 (by simp)
        · intro x hx y hy hcontra
          have : pyIsSpace x = false := hw_sp x (List.mem_of_mem_getLast? hx)
          rw [this] at hcontra
          exact absurd hcontra.1 (by simp)

theorem normalizeWS_normalized (cs : List Char) :
    WSNormalized (normalizeWS cs) :=
  joinWords_normalized (pyWords cs) (fun w hw => pyWords_sound cs w hw)

/-- Claim C4 (amended): for every raw back-end response that parses, every
returned page's text is whitespace-normalized — no leading or trailing
whitespace and no two adjacent whitespace characters (hence no double
spaces).  Page indices are the marker ordinals as parsed and texts may be
empty (see the counterexample). -/
theorem c4_pages_whitespace_normalized (raw : List Char)
    (pages : List PageT) (h : generate_full_story raw = .ok pages) :
    ∀ p ∈ pages, WSNormalized p.text := by
  intro p hp
  unfold generate_full_story at h
  cases hx : extract_final_story raw with
  | none => rw [hx] at h; cases h
  | some s =>
    rw [hx] at h
    cases h
    simp only [story_to_pages_json, List.mem_map] at hp
    obtain ⟨m, _, rfl⟩ := hp
    exact normalizeWS_normalized m.2

/-- Claim C4, counterexample: the response `"Page 1: a\nPage 3:"` parses to pages
with indices `[1, 3]` — not `1..N` for any `N` (with two pages, `1..N`
would have to be `[1, 2]`) — and with an empty text on the second page,
refuting the claim that indices are exactly `1..N` with non-empty texts. -/
theorem c4_counterexample :
    generate_full_story "Page 1: a\nPage 3:".data
      = .ok [⟨1, "a".data⟩, ⟨3, []⟩] ∧
    ([1, 3] : List Nat) ≠ [1, 2] ∧
    (⟨3, []⟩ : PageT).text = [] := by
  refine ⟨rfl, by decide, rfl⟩

/-- Witness for C4: a concrete parse whose page text the theorem certifies
as whitespace-normalized. -/
theorem c4_witness :
    WSNormalized ("hello world".data) :=
  c4_pages_whitespace_normalized "Page 1:  hello   world ".data
    [⟨1, "hello world".data⟩] rfl ⟨1, "hello world".data⟩ (by decide)

/-! ## C6 — simple_split_story -/

/-- Element `i` of `k` concatenated copies of `l` is element `i % l.length`
of `l`. -/
theorem flatten_replicate_get (l : List (List Char)) :
    ∀ (k i : Nat), i < k * l.length →
      (List.replicate k l).flatten[i]? = l[i % l.length]? := by
  intro k
  induction k with
  | zero => intro i hi; omega
  | succ k ih =>
    intro i hi
    rw [List.replicate_succ, List.flatten_cons]
    by_cases hil : i < l.length
    · rw [List.getElem?_append, if_pos hil, Nat.mod_eq_of_lt hil]
    · push_neg at hil
      have hlen : l.length ≤ i := hil
      rw [List.getElem?_append_right hlen]
      have hi2 : i - l.length < k * l.length := by
        have : i < l.length + k * l.length := by
          simpa [Nat.succ_mul, Nat.add_comm] using hi
        omega
      rw [ih (i - l.length) hi2]
      congr 1
      exact (Nat.mod_eq_sub_mod hlen).symm

/-- Claim C6 (amended): when the text has at least one non-blank line,
`simple_split_story` returns exactly `n` strings, element `i` being line
`i % L` of the `L` available lines (so: the first `n` lines when `L ≥ n`,
cyclic repetition when `L < n`).  When there are zero non-blank lines it
returns a SINGLE placeholder string, not `n` copies. -/
theorem c6_split_into_scenes (story : List Char) (n : Nat) (hn : 1 ≤ n) :
    (story_lines story ≠ [] →
      (simple_split_story story n).length = n ∧
      ∀ i, i < n →
        (simple_split_story story n)[i]?
          = (story_lines story)[i % (story_lines story).length]?) ∧
    (story_lines story = [] →
      simple_split_story story n = ["A beautiful scene".data]) := by
  constructor
  · intro hne
    have hLpos : 0 < (story_lines story).length := List.length_pos.mpr hne
    by_cases hcase : n ≤ (story_lines story).length
    · have hs : simple_split_story story n = (story_lines story).take n := by
        rw [simple_split_story, if_pos hcase]
      refine ⟨?_, ?_⟩
      · rw [hs, List.length_take]; omega
      · intro i hi
        rw [hs, List.getElem?_take, if_pos hi,
          Nat.mod_eq_of_lt (lt_of_lt_of_le hi hcase)]
    · push_neg at hcase
      have hs : simple_split_story story n
          = (List.flatten (List.replicate
              (n / (story_lines story).length + 1) (story_lines story))).take n := by
        rw [simple_split_story, if_neg (by omega), if_neg hne]
      have hflat : n < (n / (story_lines story).length + 1)
          * (story_lines story).length := by
        calc n = (story_lines story).length * (n / (story_lines story).length)
              + n % (story_lines story).length := (Nat.div_add_mod n _).symm
        _ < (story_lines story).length * (n / (story_lines story).length)
              + (story_lines story).length :=
            Nat.add_lt_add_left (Nat.mod_lt n hLpos) _
        _ = (n / (story_lines story).length + 1) * (story_lines story).length := by
            ring
      have hlenflat : (List.flatten (List.replicate
          (n / (story_lines story).length + 1) (story_lines story))).length
          = (n / (story_lines story).length + 1) * (story_lines story).length := by
        rw [List.length_flatten, List.map_replicate, List.sum_replicate,
          smul_eq_mul]
      refine ⟨?_, ?_⟩
      · rw [hs, List.length_take, hlenflat]; omega
      · intro i hi
        rw [hs, List.getElem?_take, if_pos hi]
        exact flatten_replicate_get (story_lines story) _ i (lt_trans hi hflat)
  · intro he
    rw [simple_split_story, he]
    have h0 : ¬ n ≤ ([] : List (List Char)).length := by simp; omega
    rw [if_neg (by simpa [he] using h0), if_pos rfl]
    exact List.take_of_length_le (by simp [hn])

/-- Claim C6, counterexample: on empty text (zero non-blank lines) and `n = 3`,
`simple_split_story` returns one placeholder string, not three — so it does
not "return exactly `n` strings for every `n ≥ 1` and every input". -/
theorem c6_counterexample :
    simple_split_story [] 3 = ["A beautiful scene".data] ∧
    (simple_split_story [] 3).length = 1 ∧
    (1 : Nat) ≠ 3 := by
  refine ⟨rfl, rfl, by decide⟩

/-- Witness for C6: three lines, five scenes — cyclic repetition. -/
theorem c6_witness :
    (simple_split_story "a\nb\nc".data 5).length = 5 ∧
    (simple_split_story "a\nb\nc".data 5)[3]?
      = (story_lines "a\nb\nc".data)[3 % 3]? := by
  have h := (c6_split_into_scenes "a\nb\nc".data 5 (by decide)).1 (by decide)
  exact ⟨h.1, h.2 3 (by decide)⟩

/-! ## C7 — call_dedalus_api retry policy -/

theorem call_dedalus_aux_congr (o1 o2 : Nat → ApiAttempt) :
    ∀ (fuel attempt : Nat),
      (∀ i, attempt ≤ i → i < attempt + fuel → o1 i = o2 i) →
      call_dedalus_aux o1 fuel attempt = call_dedalus_aux o2 fuel attempt := by
  intro fuel
  induction fuel with
  | zero => intro attempt _; rfl
  | succ n ih =>
    intro attempt h
    have h0 : o1 attempt = o2 attempt := h attempt le_rfl (by omega)
    have hrest : ∀ i, attempt + 1 ≤ i → i < attempt + 1 + n → o1 i = o2 i :=
      fun i h1 h2 => h i (by omega) (by omega)
    rw [call_dedalus_aux, call_dedalus_aux, ← h0, ih (attempt + 1) hrest]

/-- Claim C7 (amended): the wrapper `call_dedalus_api` tries at most `MAX_RETRIES = 3`
attempts; a 401 raises immediately with no retry and no sleep; a transient
timeout is retried, and so is a non-success status such as a 5xx
(`statusOther`, with any code and body); all-429 runs sleep with
exponential backoff `RETRY_DELAY * 2 ** attempt` (sleeps `[2, 4, 8]`) — and
429 is the ONLY branch with exponential backoff: timeouts and non-success
statuses such as 5xx are retried with the CONSTANT delay `RETRY_DELAY`
per attempt (sleeps `[2, 2]` over a full run), not exponential backoff. -/
theorem c7_retry_policy (outcomes : Nat → ApiAttempt) (r : ImgResp)
    (code : Nat) (body : List Char) :
    (outcomes 0 = .status401 →
      call_dedalus_api outcomes
        = (.error "Invalid API key. Check DEDALUS_API_KEY.".data, [])) ∧
    (∀ outcomes2 : Nat → ApiAttempt,
      (∀ i, i < MAX_RETRIES → outcomes i = outcomes2 i) →
      call_dedalus_api outcomes = call_dedalus_api outcomes2) ∧
    (outcomes 0 = .timeout → outcomes 1 = .ok r →
      call_dedalus_api outcomes = (.ok r, [RETRY_DELAY])) ∧
    ((∀ i, i < MAX_RETRIES → outcomes i = .status429) →
      call_dedalus_api outcomes
        = (.error "Failed to generate image after multiple retries".data,
           [RETRY_DELAY, RETRY_DELAY * 2, RETRY_DELAY * 4])) ∧
    ((∀ i, i < MAX_RETRIES → outcomes i = .timeout) →
      call_dedalus_api outcomes
        = (.error "API request timed out after multiple retries".data,
           [RETRY_DELAY, RETRY_DELAY])) ∧
    (outcomes 0 = .statusOther code body → outcomes 1 = .ok r →
      call_dedalus_api outcomes = (.ok r, [RETRY_DELAY])) ∧
    ((∀ i, i < MAX_RETRIES → outcomes i = .statusOther code body) →
      call_dedalus_api outcomes
        = (.error ("API error ".data ++ (Nat.repr code).data
            ++ ": ".data ++ body),
           [RETRY_DELAY, RETRY_DELAY])) := by
  refine ⟨?_, ?_, ?_, ?_, ?_, ?_, ?_⟩
  · intro h0
    rw [call_dedalus_api, MAX_RETRIES, call_dedalus_aux, h0]
  · intro o2 h
    exact call_dedalus_aux_congr outcomes o2 MAX_RETRIES 0
      (fun i _ h2 => h i (by omega))
  · intro h0 h1
    rw [call_dedalus_api, MAX_RETRIES, call_dedalus_aux, h0,
      if_pos (by rw [MAX_RETRIES]; omega), call_dedalus_aux, h1]
  · intro h
    rw [call_dedalus_api, MAX_RETRIES,
      call_dedalus_aux, h 0 (by rw [MAX_RETRIES]; omega),
      call_dedalus_aux, h 1 (by rw [MAX_RETRIES]; omega),
      call_dedalus_aux, h 2 (by rw [MAX_RETRIES]; omega),
      call_dedalus_aux]
    rfl
  · intro h
    rw [call_dedalus_api, MAX_RETRIES,
      call_dedalus_aux, h 0 (by rw [MAX_RETRIES]; omega),
      if_pos (by rw [MAX_RETRIES]; omega),
      call_dedalus_aux, h 1 (by rw [MAX_RETRIES]; omega),
      if_pos (by rw [MAX_RETRIES]; omega),
      call_dedalus_aux, h 2 (by rw [MAX_RETRIES]; omega),
      if_neg (by rw [MAX_RETRIES]; omega)]
  · intro h0 h1
    rw [call_dedalus_api, MAX_RETRIES, call_dedalus_aux, h0,
      if_pos (by rw [MAX_RETRIES]; omega), call_dedalus_aux, h1]
    rfl
  · intro h
    rw [call_dedalus_api, MAX_RETRIES,
      call_dedalus_aux, h 0 (by rw [MAX_RETRIES]; omega),
      if_pos (by rw [MAX_RETRIES]; omega),
      call_dedalus_aux, h 1 (by rw [MAX_RETRIES]; omega),
      if_pos (by rw [MAX_RETRIES]; omega),
      call_dedalus_aux, h 2 (by rw [MAX_RETRIES]; omega),
      if_neg (by rw [MAX_RETRIES]; omega)]
    rfl

/-- Claim C7, counterexample: two timeouts then success is retried with sleeps
`[2, 2]` — a constant delay, not exponential backoff (which would be
`[2, 4]`).  The claim that transient timeouts "are retried with exponential
backoff" fails. -/
theorem c7_counterexample :
    (call_dedalus_api
      (fun i => if i < 2 then ApiAttempt.timeout else .ok ⟨[]⟩)).2
      = [2, 2] ∧
    ([2, 2] : List Nat) ≠ [2, 4] := by
  refine ⟨rfl, by decide⟩

/-- Witness for C7 at concrete outcome functions: immediate 401, all-429
exponential backoff, and an all-500 run retried with the constant delay
(sleeps `[2, 2]`, not `[2, 4]`). -/
theorem c7_witness :
    call_dedalus_api (fun _ => ApiAttempt.status401)
      = (.error "Invalid API key. Check DEDALUS_API_KEY.".data, []) ∧
    call_dedalus_api (fun _ => ApiAttempt.status429)
      = (.error "Failed to generate image after multiple retries".data,
         [2, 4, 8]) ∧
    call_dedalus_api
        (fun _ => ApiAttempt.statusOther 500 "Internal Server Error".data)
      = (.error ("API error ".data ++ (Nat.repr 500).data ++ ": ".data
          ++ "Internal Server Error".data),
         [2, 2]) := by
  have h := c7_retry_policy (fun _ => ApiAttempt.status429) ⟨[]⟩ 500 []
  have h2 := c7_retry_policy (fun _ => ApiAttempt.status401) ⟨[]⟩ 500 []
  have h3 := c7_retry_policy
    (fun _ => ApiAttempt.statusOther 500 "Internal Server Error".data) ⟨[]⟩
    500 "Internal Server Error".data
  exact ⟨h2.1 rfl, h.2.2.2.1 (fun i _ => rfl),
    h3.2.2.2.2.2.2 (fun i _ => rfl)⟩

/-! ## C10 — generate_audio_for_page voice resolution -/

/-- Claim C10: the voice name is resolved through `VOICE_IDS` with a silent
fallback to the `"default"` voice id for any name not in the table (the
call never fails on an unknown voice name); an empty (or absent, which the
`dict.get` default conflates with empty) `text` field returns `""` without
invoking the text-to-speech back-end; a non-empty text invokes it with the
resolved voice id and maps a `None` outcome to `""`. -/
theorem c10_audio_voice_fallback (page : PageT) (voice : List Char)
    (tts : List Char → List Char → Option (List Char)) :
    (page.text = [] → generate_audio_for_page page voice tts = ([], false)) ∧
    (page.text ≠ [] →
      generate_audio_for_page page voice tts
        = ((tts page.text (resolve_voice_id voice)).getD [], true)) ∧
    (VOICE_IDS.lookup voice = none →
      resolve_voice_id voice = voice_ids_default) ∧
    (voice ≠ "default".data →
      resolve_voice_id voice = voice_ids_default) := by
  refine ⟨?_, ?_, ?_, ?_⟩
  · intro h; simp [generate_audio_for_page, h]
  · intro h; simp [generate_audio_for_page, h]
  · intro h; simp [resolve_voice_id, h]
  · intro h
    have hb : (voice == "default".data) = false := beq_eq_false_iff_ne.mpr h
    have hl : VOICE_IDS.lookup voice = none := by
      simp only [VOICE_IDS, List.lookup, hb]
    simp [resolve_voice_id, hl]

/-- Witness for C10: an unknown voice name and an empty-text page. -/
theorem c10_witness :
    generate_audio_for_page ⟨1, []⟩ "kid".data
      (fun _ _ => some "data/a.mp3".data) = ([], false) ∧
    resolve_voice_id "kid".data = voice_ids_default := by
  have h := c10_audio_voice_fallback ⟨1, []⟩ "kid".data
    (fun _ _ => some "data/a.mp3".data)
  exact ⟨h.1 rfl, h.2.2.2 (by decide)⟩

/-! ## C3 — per-page media rendering is total and degrades to "" -/

/-- Claim C3: for every page and every combination of image-call and speech-call
success/failure, the per-page rendering step returns a scene record whose
reference fields are each populated or the empty string; a raised/failed
image call yields `image_url = ""`, a failed speech call yields
`audio_url = ""`, and no exception escapes — `generate_image_for_page`
catches everything (returning `""`), `generate_audio_for_page` maps a
failed synthesis to `""`, and the `asyncio.gather(...,
return_exceptions=True)` + `isinstance` glue in the loop body converts any
remaining exception to `""`, so the step is a total function into scene
records. -/
theorem c3_render_page_isolation (page : PageT) (mp : Option (List Char))
    (apiO : Except (List Char) ImgResp) (saveRes : List Char)
    (voice : List Char) (tts : List Char → List Char → Option (List Char))
    (baseUrl : List Char)
    (imageRes audioRes : Except (List Char) (List Char)) :
    (∀ e, apiO = .error e →
      generate_image_for_page page mp apiO saveRes = []) ∧
    ((page.text ≠ [] ∧ tts page.text (resolve_voice_id voice) = none) →
      (generate_audio_for_page page voice tts).1 = []) ∧
    (∀ e, imageRes = .error e →
      (process_page_step baseUrl page imageRes audioRes).image_url = []) ∧
    (∀ e, audioRes = .error e →
      (process_page_step baseUrl page imageRes audioRes).audio_url = []) ∧
    (∀ v, imageRes = .ok v →
      (process_page_step baseUrl page imageRes audioRes).image_url
        = to_public_media_url baseUrl v) ∧
    (∀ v, audioRes = .ok v →
      (process_page_step baseUrl page imageRes audioRes).audio_url
        = to_public_media_url baseUrl v) ∧
    (process_page_step baseUrl page imageRes audioRes).page = page.page ∧
    (process_page_step baseUrl page imageRes audioRes).scene_text
      = page.text := by
  refine ⟨?_, ?_, ?_, ?_, ?_, ?_, rfl, rfl⟩
  · intro e he
    subst he
    by_cases ht : page.text = []
    · simp [generate_image_for_page, ht]
    · cases mp with
      | some m => simp [generate_image_for_page, ht]
      | none => simp [generate_image_for_page, generate_image, ht]
  · rintro ⟨ht, htts⟩
    simp [generate_audio_for_page, ht, htts]
  · intro e he; subst he
    simp [process_page_step, to_public_media_url, pyStrip]
  · intro e he; subst he
    simp [process_page_step, to_public_media_url, pyStrip]
  · intro v hv; subst hv; rfl
  · intro v hv; subst hv; rfl

/-! ## Shape of the emitted event stream -/

/-- On the normal path (stage 1 returned a non-empty page list and the
optional master-style call did not raise), the stream is exactly one
`story`, the per-page `scene`s of `story_pages[:num_images]` in list order,
and one `complete`. -/
theorem event_generator_ok_shape (env : StreamEnv) (ps : List PageT)
    (h1 : env.stage1 = .ok ps) (h2 : ps ≠ []) (h3 : MasterOk env) :
    ∃ mp, event_generator env
      = Event.story ps ::
          (scene_events env mp (ps.take env.num_images) ++ [Event.complete]) := by
  cases hu : env.use_style_consistency with
  | false =>
    refine ⟨none, ?_⟩
    unfold event_generator
    rw [h1]
    dsimp only
    rw [if_neg h2, hu]
    rfl
  | true =>
    obtain ⟨r, hr⟩ := h3 hu
    refine ⟨(if generate_master_prompt (master_input env.prompt ps) r = []
             then none
             else some (generate_master_prompt (master_input env.prompt ps) r)), ?_⟩
    unfold event_generator
    rw [h1]
    dsimp only
    rw [if_neg h2, hu, hr]
    rfl

theorem scene_events_cons (env : StreamEnv) (mp : Option (List Char)) :
    ∀ (pages : List PageT) (n : Nat),
      ((List.enumFrom n pages).map (fun x => Event.scene
        (process_page_step env.baseUrl x.2 (env.imgRes mp x.1)
          (env.audRes x.1)))).filterMap
        (fun e => match e with | Event.scene s => some s.page | _ => none)
      = pages.map PageT.page := by
  intro pages
  induction pages with
  | nil => intro n; rfl
  | cons p ps ih =>
    intro n
    simp only [List.enumFrom_cons, List.map_cons, List.filterMap_cons]
    rw [ih (n + 1)]
    rfl

/-- The `scene` events of the stage-2 loop carry exactly the processed
pages' indices, in list order. -/
theorem scenePages_scene_events (env : StreamEnv) (mp : Option (List Char))
    (pages : List PageT) :
    scenePages (scene_events env mp pages) = pages.map PageT.page := by
  have h := scene_events_cons env mp pages 0
  exact h

theorem scene_events_are_scenes (env : StreamEnv) (mp : Option (List Char))
    (pages : List PageT) :
    ∀ e ∈ scene_events env mp pages, ∃ s, e = Event.scene s := by
  intro e he
  simp only [scene_events, List.mem_map] at he
  obtain ⟨x, _, rfl⟩ := he
  exact ⟨_, rfl⟩

theorem scene_events_length (env : StreamEnv) (mp : Option (List Char))
    (pages : List PageT) :
    (scene_events env mp pages).length = pages.length := by
  simp [scene_events]

theorem take_range' :
    ∀ (k s n : Nat), (List.range' s n).take k = List.range' s (min k n) := by
  intro k
  induction k with
  | zero => intro s n; simp
  | succ k ih =>
    intro s n
    cases n with
    | zero => simp
    | succ n =>
      rw [List.range'_succ, List.take_succ_cons, ih (s + 1) n,
        Nat.succ_min_succ, List.range'_succ]

theorem scenePages_shape (ps : List PageT) (S : List Event) :
    scenePages (Event.story ps :: (S ++ [Event.complete])) = scenePages S := by
  simp [scenePages, List.filterMap_append, List.filterMap_cons]

theorem stream_shape_counts (ps : List PageT) (S : List Event)
    (hS : ∀ e ∈ S, ∃ s, e = Event.scene s) :
    countStory (Event.story ps :: (S ++ [Event.complete])) = 1 ∧
    countComplete (Event.story ps :: (S ++ [Event.complete])) = 1 ∧
    countError (Event.story ps :: (S ++ [Event.complete])) = 0 ∧
    countScene (Event.story ps :: (S ++ [Event.complete])) = S.length ∧
    (Event.story ps :: (S ++ [Event.complete])).getLast?
      = some Event.complete := by
  have hst : countStory S = 0 := by
    rw [countStory, List.countP_eq_zero]
    intro e he
    obtain ⟨s, rfl⟩ := hS e he
    simp
  have hco : countComplete S = 0 := by
    rw [countComplete, List.countP_eq_zero]
    intro e he
    obtain ⟨s, rfl⟩ := hS e he
    simp
  have her : countError S = 0 := by
    rw [countError, List.countP_eq_zero]
    intro e he
    obtain ⟨s, rfl⟩ := hS e he
    simp
  have hsc : countScene S = S.length := by
    rw [countScene, List.countP_eq_length]
    intro e he
    obtain ⟨s, rfl⟩ := hS e he
    simp
  refine ⟨?_, ?_, ?_, ?_, ?_⟩
  · have := hst
    simp only [countStory, List.countP_cons, List.countP_append] at this ⊢
    simp [this]
  · have := hco
    simp only [countComplete, List.countP_cons, List.countP_append] at this ⊢
    simp [this]
  · have := her
    simp only [countError, List.countP_cons, List.countP_append] at this ⊢
    simp [this]
  · have := hsc
    simp only [countScene, List.countP_cons, List.countP_append] at this ⊢
    simp [this]
  · rw [← List.cons_append, List.getLast?_concat]

/-! ## C1 — streaming event sequence -/

/-- Claim C1 (amended): on the normal path with stage-1 page indices exactly
`1..N`, the stream has exactly one `story`, exactly
`min num_images N` `scene` events (NOT `N`: the loop runs over
`story_pages[:num_images]`, so pages beyond `num_images` get no scene)
whose page indices are pairwise distinct and cover
`1..min num_images N`, and one terminal `complete`; when stage 1 raises,
the stream is a single `error` event with no `scene`/`complete`. -/
theorem c1_stream_event_sequence (env : StreamEnv) (ps : List PageT)
    (h1 : env.stage1 = .ok ps) (h2 : ps ≠ []) (h3 : MasterOk env)
    (h4 : ps.map PageT.page = List.range' 1 ps.length) :
    countStory (event_generator env) = 1 ∧
    countComplete (event_generator env) = 1 ∧
    countError (event_generator env) = 0 ∧
    (event_generator env).getLast? = some Event.complete ∧
    scenePages (event_generator env)
      = List.range' 1 (min env.num_images ps.length) ∧
    countScene (event_generator env) = min env.num_images ps.length ∧
    (scenePages (event_generator env)).Nodup ∧
    (∀ e env2, StreamEnv.stage1 env2 = Except.error e →
      event_generator env2 = [Event.error e]) := by
  obtain ⟨mp, hsh⟩ := event_generator_ok_shape env ps h1 h2 h3
  have hall := scene_events_are_scenes env mp (ps.take env.num_images)
  obtain ⟨hst, hco, her, hsc, hla⟩ :=
    stream_shape_counts ps (scene_events env mp (ps.take env.num_images)) hall
  have hpages : scenePages (event_generator env)
      = List.range' 1 (min env.num_images ps.length) := by
    rw [hsh, scenePages_shape,
      scenePages_scene_events env mp (ps.take env.num_images),
      List.map_take, h4, take_range']
  refine ⟨?_, ?_, ?_, ?_, hpages, ?_, ?_, ?_⟩
  · rw [hsh]; exact hst
  · rw [hsh]; exact hco
  · rw [hsh]; exact her
  · rw [hsh]; exact hla
  · rw [hsh]
    rw [hsc, scene_events_length, List.length_take]
  · rw [hpages]
    exact List.nodup_range' _ _
  · intro e env2 h
    unfold event_generator
    rw [h]

/-- A concrete six-page stage-1 result (the text stage's own system prompt
asks for six pages). -/
def pagesSix : List PageT :=
  [⟨1, "p1".data⟩, ⟨2, "p2".data⟩, ⟨3, "p3".data⟩,
   ⟨4, "p4".data⟩, ⟨5, "p5".data⟩, ⟨6, "p6".data⟩]

/-- A streaming run with six stage-1 pages and the endpoint's default
`num_images = 4`, all media succeeding. -/
def envC1 : StreamEnv :=
  { stage1 := .ok pagesSix
    use_style_consistency := false
    masterApi := .ok ⟨[]⟩
    num_images := 4
    imgRes := fun _ _ => .ok "data/i.webp".data
    audRes := fun _ => .ok "data/a.mp3".data
    baseUrl := []
    prompt := "a brave robot".data }

/-- Claim C1, counterexample: stage 1 produced `N = 6` pages but only 4 `scene`
events are emitted (the loop runs over `story_pages[:num_images]` with the
endpoint default `num_images = 4`), refuting "exactly N scene events with
page indices covering 1..N". -/
theorem c1_counterexample :
    envC1.stage1 = .ok pagesSix ∧
    pagesSix.length = 6 ∧
    countScene (event_generator envC1) = 4 ∧
    scenePages (event_generator envC1) = [1, 2, 3, 4] ∧
    (4 : Nat) ≠ 6 := by
  refine ⟨rfl, rfl, rfl, rfl, by decide⟩

def pagesTwo : List PageT := [⟨1, "p1".data⟩, ⟨2, "p2".data⟩]

def envW1 : StreamEnv :=
  { stage1 := .ok pagesTwo
    use_style_consistency := false
    masterApi := .ok ⟨[]⟩
    num_images := 4
    imgRes := fun _ _ => .ok "data/i.webp".data
    audRes := fun _ => .ok "data/a.mp3".data
    baseUrl := []
    prompt := "a brave robot".data }

/-- Witness for C1 at a concrete two-page run. -/
theorem c1_witness :
    countStory (event_generator envW1) = 1 ∧
    countComplete (event_generator envW1) = 1 ∧
    scenePages (event_generator envW1) = List.range' 1 (min 4 2) := by
  have h := c1_stream_event_sequence envW1 pagesTwo rfl (by decide)
    (fun hu => absurd hu (by decide)) (by decide)
  exact ⟨h.1, h.2.1, h.2.2.2.2.1⟩

/-! ## C2 — error events and failure isolation -/

/-- Claim C2 (amended): on the normal path the stream contains no `error` event
and ends in `complete` — for EVERY combination of per-page media outcomes —
and a failed media call surfaces only as an empty reference field of its
scene.  (The claim's "only for Stage-1 failure or a transport fault" must
however also except the enabled master-style call: its failure emits a
terminal `error` despite stage 1 having succeeded, see the
counterexample.) -/
theorem c2_stage2_failures_never_abort (env : StreamEnv) (ps : List PageT)
    (h1 : env.stage1 = .ok ps) (h2 : ps ≠ []) (h3 : MasterOk env) :
    countError (event_generator env) = 0 ∧
    (event_generator env).getLast? = some Event.complete ∧
    (∀ page iRes aRes e, iRes = Except.error e →
      (process_page_step env.baseUrl page iRes aRes).image_url = []) ∧
    (∀ page iRes aRes e, aRes = Except.error e →
      (process_page_step env.baseUrl page iRes aRes).audio_url = []) := by
  obtain ⟨mp, hsh⟩ := event_generator_ok_shape env ps h1 h2 h3
  have hall := scene_events_are_scenes env mp (ps.take env.num_images)
  obtain ⟨_, _, her, _, hla⟩ :=
    stream_shape_counts ps (scene_events env mp (ps.take env.num_images)) hall
  refine ⟨by rw [hsh]; exact her, by rw [hsh]; exact hla, ?_, ?_⟩
  · intro page iRes aRes e he
    subst he
    simp [process_page_step, to_public_media_url, pyStrip]
  · intro page iRes aRes e he
    subst he
    simp [process_page_step, to_public_media_url, pyStrip]

def envD2 : StreamEnv :=
  { stage1 := .ok [⟨1, "t".data⟩]
    use_style_consistency := true
    masterApi := .error "boom".data
    num_images := 4
    imgRes := fun _ _ => .ok "data/i.webp".data
    audRes := fun _ => .ok "data/a.mp3".data
    baseUrl := []
    prompt := "a brave robot".data }

/-- Claim C2, counterexample: with style consistency enabled, a failure of the
master-style image call — a media failure, not a Stage-1 or transport
fault — emits a terminal `error` event and halts the stream (no scenes, no
`complete`) although stage 1 succeeded. -/
theorem c2_counterexample :
    envD2.stage1 = .ok [⟨1, "t".data⟩] ∧
    event_generator envD2
      = [Event.story [⟨1, "t".data⟩], Event.error "boom".data] ∧
    countError (event_generator envD2) = 1 ∧
    countComplete (event_generator envD2) = 0 ∧
    countScene (event_generator envD2) = 0 := by
  refine ⟨rfl, rfl, rfl, rfl, rfl⟩

def envW2 : StreamEnv :=
  { stage1 := .ok pagesTwo
    use_style_consistency := true
    masterApi := .ok ⟨[⟨none, none, some "watercolor style".data⟩]⟩
    num_images := 4
    imgRes := fun _ i => if i == 0 then .error "img fail".data
                         else .ok "data/i.webp".data
    audRes := fun _ => .error "tts down".data
    baseUrl := []
    prompt := "a brave robot".data }

/-- Witness for C2: style consistency on, master call succeeded, every
audio call and the first image call failing — still no error event and a
terminal `complete`. -/
theorem c2_witness :
    countError (event_generator envW2) = 0 ∧
    (event_generator envW2).getLast? = some Event.complete ∧
    (process_page_step envW2.baseUrl ⟨1, "p1".data⟩
      (Except.error "img fail".data) (.ok "data/a.mp3".data)).image_url
      = [] := by
  have h := c2_stage2_failures_never_abort envW2 pagesTwo rfl (by decide)
    (fun _ => ⟨_, rfl⟩)
  exact ⟨h.1, h.2.1, h.2.2.1 ⟨1, "p1".data⟩ _ (.ok "data/a.mp3".data) _ rfl⟩

/-! ## C8 — master-style failure is not graceful (code bug) -/

def envC8 : StreamEnv :=
  { stage1 := .ok pagesSix
    use_style_consistency := true
    masterApi := .error "API request timed out after multiple retries".data
    num_images := 4
    imgRes := fun _ _ => .ok "data/i.webp".data
    audRes := fun _ => .ok "data/a.mp3".data
    baseUrl := []
    prompt := "a brave robot".data }

/-- Claim C8 (code bug): when the one-time master-style call raises (the only way
it can fail: `call_dedalus_api` raises after its retries), the exception is
not caught at main.py line 316, so the stream emits a terminal `error` and
halts — no per-page fallback happens.  The intended fallback branch
(main.py line 320, "Master prompt failed, falling back to per-page
generations") is dead code: when `generate_master_prompt` returns at all,
its value is never empty, as the last two conjuncts show on both response
shapes. -/
theorem c8_master_failure_aborts :
    event_generator envC8
      = [Event.story pagesSix,
         Event.error "API request timed out after multiple retries".data] ∧
    countComplete (event_generator envC8) = 0 ∧
    countScene (event_generator envC8) = 0 ∧
    generate_master_prompt "a brave robot".data ⟨[]⟩ ≠ [] ∧
    generate_master_prompt "a brave robot".data
      ⟨[⟨none, none, some []⟩]⟩ ≠ [] := by
  refine ⟨rfl, rfl, rfl, by decide, by decide⟩

/-! ## C9 — stage 2 is sequential, scenes in page order -/

/-- Claim C9 (amended): the stage-2 loop awaits each page's media before
starting the next (only a page's own image and audio run concurrently), so
`scene` events are emitted in page-list order — for every combination of
media outcomes, not in completion order. -/
theorem c9_scenes_in_page_order (env : StreamEnv) (ps : List PageT)
    (h1 : env.stage1 = .ok ps) (h2 : ps ≠ []) (h3 : MasterOk env) :
    scenePages (event_generator env)
      = (ps.take env.num_images).map PageT.page := by
  obtain ⟨mp, hsh⟩ := event_generator_ok_shape env ps h1 h2 h3
  rw [hsh, scenePages_shape, scenePages_scene_events]

def pagesTwo9 : List PageT := [⟨1, "q1".data⟩, ⟨2, "q2".data⟩]

def envC9 : StreamEnv :=
  { stage1 := .ok pagesTwo9
    use_style_consistency := false
    masterApi := .ok ⟨[]⟩
    num_images := 4
    imgRes := fun _ i => if i == 0 then .error "img fail".data
                         else .ok "data/i2.webp".data
    audRes := fun i => if i == 0 then .error "aud fail".data
                       else .ok "data/a2.mp3".data
    baseUrl := []
    prompt := "a brave robot".data }

/-- Claim C9, counterexample: page 1's media both fail while page 2's succeed, yet
the scenes still arrive in page-index order `[1, 2]` — emission order is
the loop's page order, independent of outcomes, refuting "completion
order, not page-index order" (and there is no per-page task forking: the
loop body awaits both media of a page before the next page starts). -/
theorem c9_counterexample :
    event_generator envC9
      = [Event.story pagesTwo9,
         Event.scene ⟨0, 1, "q1".data, [], []⟩,
         Event.scene ⟨1, 2, "q2".data, "data/i2.webp".data,
           "data/a2.mp3".data⟩,
         Event.complete] ∧
    scenePages (event_generator envC9) = [1, 2] := by
  refine ⟨rfl, rfl⟩

def envW9 : StreamEnv :=
  { stage1 := .ok pagesTwo9
    use_style_consistency := false
    masterApi := .ok ⟨[]⟩
    num_images := 1
    imgRes := fun _ _ => .ok "data/i.webp".data
    audRes := fun _ => .ok "data/a.mp3".data
    baseUrl := []
    prompt := "a brave robot".data }

/-- Witness for C9 at a concrete run (`num_images = 1` truncates). -/
theorem c9_witness :
    scenePages (event_generator envW9)
      = (pagesTwo9.take 1).map PageT.page := by
  exact c9_scenes_in_page_order envW9 pagesTwo9 rfl (by decide)
    (fun hu => absurd hu (by decide))

/-! ## C5 — extract_final_story selects the LAST marker occurrence

The scan `finditerAux` is shown to return exactly the positions at which
`Page\s*1:` matches, in increasing order; the key step is that two match
positions can never overlap, because no character strictly inside a match
(`a`, `g`, `e`, whitespace, `1`, `:`) can be the `P` that starts another
match. -/

theorem getElem?_takeWhile {p : Char → Bool} :
    ∀ (l : List Char) (k : Nat) (c : Char),
      (l.takeWhile p)[k]? = some c → l[k]? = some c ∧ p c = true := by
  intro l
  induction l with
  | nil => intro k c h; simp [List.takeWhile] at h
  | cons a t ih =>
    intro k c h
    rw [List.takeWhile_cons] at h
    by_cases ha : p a
    · rw [if_pos ha] at h
      cases k with
      | zero =>
        simp only [List.getElem?_cons_zero, Option.some.injEq] at h ⊢
        exact ⟨h, h ▸ ha⟩
      | succ k =>
        simp only [List.getElem?_cons_succ] at h ⊢
        exact ih k c h
    · rw [if_neg ha] at h; simp at h

theorem dropWhile_eq_drop_takeWhile_length {p : Char → Bool} :
    ∀ l : List Char, l.dropWhile p = l.drop (l.takeWhile p).length := by
  intro l
  induction l with
  | nil => rfl
  | cons a t ih =>
    rw [List.dropWhile_cons, List.takeWhile_cons]
    by_cases ha : p a
    · rw [if_pos ha, if_pos ha, List.length_cons, List.drop_succ_cons, ih]
    · rw [if_neg ha, if_neg ha]
      rfl

/-- Structural facts of a `Page\s*1:` match at `i`: the match fits inside
the text and every constituent character is determined. -/
theorem markerAtB_facts (cs : List Char) (i : Nat)
    (h : markerAtB cs i = true) :
    i + markerLen cs i ≤ cs.length ∧
    cs[i]? = some 'P' ∧ cs[i + 1]? = some 'a' ∧
    cs[i + 2]? = some 'g' ∧ cs[i + 3]? = some 'e' ∧
    (∀ t, t < wsRunLen (cs.drop (i + 4)) →
      ∃ c, cs[i + 4 + t]? = some c ∧ pyIsSpace c = true) ∧
    cs[i + 4 + wsRunLen (cs.drop (i + 4))]? = some '1' ∧
    cs[i + 5 + wsRunLen (cs.drop (i + 4))]? = some ':' := by
  rw [markerAtB, Bool.and_eq_true, beq_iff_eq, beq_iff_eq] at h
  obtain ⟨h1, h2⟩ := h
  have hlen1 : cs.length - i ≥ 4 := by
    have := congrArg List.length h1
    rw [List.length_take, List.length_drop] at this
    simp at this
    omega
  have hw : wsRunLen (cs.drop (i + 4))
      = ((cs.drop (i + 4)).takeWhile pyIsSpace).length := rfl
  have hlen2 : ((cs.drop (i + 4)).dropWhile pyIsSpace).length ≥ 2 := by
    have := congrArg List.length h2
    rw [List.length_take] at this
    simp at this
    omega
  have hdw : (cs.drop (i + 4)).dropWhile pyIsSpace
      = cs.drop (i + 4 + wsRunLen (cs.drop (i + 4))) := by
    rw [dropWhile_eq_drop_takeWhile_length, List.drop_drop, hw]
  have hlentotal : i + markerLen cs i ≤ cs.length := by
    have hfull := List.takeWhile_append_dropWhile (p := pyIsSpace)
      (l := cs.drop (i + 4))
    have := congrArg List.length hfull
    rw [List.length_append, List.length_drop] at this
    rw [markerLen]
    omega
  have hchar : ∀ k, k < 4 → cs[i + k]? = ("Page".data)[k]? := by
    intro k hk
    have : ((cs.drop i).take 4)[k]? = ("Page".data)[k]? := by rw [h1]
    rw [List.getElem?_take, if_pos hk, List.getElem?_drop] at this
    exact this
  have hd0 : ((cs.drop (i + 4)).dropWhile pyIsSpace)[0]? = some '1' := by
    have : (((cs.drop (i + 4)).dropWhile pyIsSpace).take 2)[0]?
        = (['1', ':'])[0]? := by rw [h2]
    rw [List.getElem?_take, if_pos (by omega)] at this
    exact this
  have hd1 : ((cs.drop (i + 4)).dropWhile pyIsSpace)[1]? = some ':' := by
    have : (((cs.drop (i + 4)).dropWhile pyIsSpace).take 2)[1]?
        = (['1', ':'])[1]? := by rw [h2]
    rw [List.getElem?_take, if_pos (by omega)] at this
    exact this
  rw [hdw, List.getElem?_drop] at hd0 hd1
  refine ⟨hlentotal, ?_, ?_, ?_, ?_, ?_, ?_, ?_⟩
  · have := hchar 0 (by omega); simpa using this
  · have := hchar 1 (by omega); simpa using this
  · have := hchar 2 (by omega); simpa using this
  · have := hchar 3 (by omega); simpa using this
  · intro t ht
    have hs : t < ((cs.drop (i + 4)).takeWhile pyIsSpace).length := by
      rw [← hw]; exact ht
    have hec : ∃ c, ((cs.drop (i + 4)).takeWhile pyIsSpace)[t]? = some c := by
      rw [List.getElem?_eq_getElem hs]
      exact ⟨_, rfl⟩
    obtain ⟨c, hc⟩ := hec
    obtain ⟨hcv, hcp⟩ := getElem?_takeWhile _ t c hc
    rw [List.getElem?_drop] at hcv
    exact ⟨c, hcv, hcp⟩
  · simpa using hd0
  · have heq : i + 5 + wsRunLen (cs.drop (i + 4))
        = i + 4 + wsRunLen (cs.drop (i + 4)) + 1 := by omega
    rw [heq]
    exact hd1

/-- A match always starts with `P`. -/
theorem markerAtB_head (cs : List Char) (j : Nat)
    (h : markerAtB cs j = true) : cs[j]? = some 'P' :=
  (markerAtB_facts cs j h).2.1

/-- No second match can start strictly inside a match's span: every
character there is one of `a`, `g`, `e`, whitespace, `1`, `:`, never
`P`. -/
theorem markerAtB_no_overlap (cs : List Char) (i : Nat)
    (h : markerAtB cs i = true) :
    ∀ j, i < j → j < i + markerLen cs i → markerAtB cs j = false := by
  intro j hj1 hj2
  by_contra hcon
  rw [Bool.not_eq_false] at hcon
  have hP := markerAtB_head cs j hcon
  obtain ⟨_, _, ha, hg, he, hws, h1, h2⟩ := markerAtB_facts cs i h
  rw [markerLen] at hj2
  have hcases : j = i + 1 ∨ j = i + 2 ∨ j = i + 3 ∨
      (i + 4 ≤ j ∧ j < i + 4 + wsRunLen (cs.drop (i + 4))) ∨
      j = i + 4 + wsRunLen (cs.drop (i + 4)) ∨
      j = i + 5 + wsRunLen (cs.drop (i + 4)) := by omega
  rcases hcases with rfl | rfl | rfl | ⟨hge, hlt⟩ | rfl | rfl
  · rw [hP] at ha; exact absurd (Option.some.inj ha) (by decide)
  · rw [hP] at hg; exact absurd (Option.some.inj hg) (by decide)
  · rw [hP] at he; exact absurd (Option.some.inj he) (by decide)
  · obtain ⟨c, hc, hcs⟩ := hws (j - (i + 4)) (by omega)
    have : i + 4 + (j - (i + 4)) = j := by omega
    rw [this, hP] at hc
    have : c = 'P' := (Option.some.inj hc).symm
    subst this
    exact absurd hcs (by decide)
  · rw [hP] at h1; exact absurd (Option.some.inj h1) (by decide)
  · rw [hP] at h2; exact absurd (Option.some.inj h2) (by decide)

/-- The finditer scan returns exactly the match positions in `[i, len)`, in
increasing order (as a filtered range): skipping past a match's span loses
nothing because no match can start inside it. -/
theorem finditerAux_eq_filter (cs : List Char) :
    ∀ (fuel i : Nat), cs.length + 1 ≤ fuel + i →
      finditerAux cs fuel i
        = (List.range' i (cs.length - i)).filter (fun j => markerAtB cs j) := by
  intro fuel
  induction fuel with
  | zero =>
    intro i hfi
    have : cs.length - i = 0 := by omega
    rw [finditerAux, this]
    rfl
  | succ fuel ih =>
    intro i hfi
    rw [finditerAux]
    by_cases hi : i < cs.length
    · rw [if_pos hi]
      have hrange : List.range' i (cs.length - i)
          = i :: List.range' (i + 1) (cs.length - (i + 1)) := by
        have h1 : cs.length - i = (cs.length - (i + 1)) + 1 := by omega
        rw [h1, List.range'_succ]
      by_cases hm : markerAtB cs i
      · rw [if_pos hm, hrange, List.filter_cons, if_pos (by simpa using hm)]
        have hbound := (markerAtB_facts cs i hm).1
        have hL : 1 ≤ markerLen cs i := by rw [markerLen]; omega
        have hsplit : List.range' (i + 1) (cs.length - (i + 1))
            = List.range' (i + 1) (markerLen cs i - 1) ++
              List.range' (i + markerLen cs i)
                (cs.length - (i + markerLen cs i)) := by
          have := List.range'_append (i + 1) (markerLen cs i - 1)
            (cs.length - (i + markerLen cs i)) 1
          rw [show i + 1 + 1 * (markerLen cs i - 1) = i + markerLen cs i
            by omega] at this
          rw [show (cs.length - (i + markerLen cs i)) + (markerLen cs i - 1)
            = cs.length - (i + 1) by omega] at this
          exact this.symm
        rw [hsplit, List.filter_append]
        have hnil : (List.range' (i + 1) (markerLen cs i - 1)).filter
            (fun j => markerAtB cs j) = [] := by
          rw [List.filter_eq_nil_iff]
          intro j hjmem
          rw [List.mem_range'_1] at hjmem
          have := markerAtB_no_overlap cs i hm j (by omega) (by omega)
          simpa using this
        rw [hnil, List.nil_append, ih (i + markerLen cs i) (by omega)]
      · rw [if_neg hm, hrange, List.filter_cons, if_neg (by simpa using hm),
          ih (i + 1) (by omega)]
    · rw [if_neg hi]
      have : cs.length - i = 0 := by omega
      rw [this]
      rfl

/-- In a strictly increasing list, an element that bounds all others from
above is the last one. -/
theorem getLast?_of_max :
    ∀ (l : List Nat), l.Pairwise (· < ·) → ∀ m ∈ l, (∀ x ∈ l, x ≤ m) →
      l.getLast? = some m := by
  intro l
  induction l with
  | nil => intro _ m hm; simp at hm
  | cons a t ih =>
    intro hp m hm hbound
    rcases List.pairwise_cons.mp hp with ⟨halt, hpt⟩
    cases t with
    | nil =>
      have : m = a := by simpa using hm
      subst this
      rfl
    | cons b t2 =>
      have hm2 : m ∈ b :: t2 := by
        rcases List.mem_cons.mp hm with rfl | h
        · exact absurd (hbound b (by simp)) (by
            have := halt b (by simp)
            omega)
        · exact h
      rw [List.getLast?_cons_cons]
      exact ih hpt m hm2 (fun x hx => hbound x (List.mem_cons_of_mem _ hx))

theorem pairwise_lt_range'_one :
    ∀ (n s : Nat), (List.range' s n).Pairwise (· < ·) := by
  intro n
  induction n with
  | zero => intro s; simp
  | succ n ih =>
    intro s
    rw [List.range'_succ, List.pairwise_cons]
    refine ⟨?_, ih (s + 1)⟩
    intro x hx
    rw [List.mem_range'_1] at hx
    omega

/-- Claim C5: the function `extract_final_story` returns `None` exactly when the page-1 marker
(`Page\s*1:`) never occurs; when it does occur, the result is the stripped
suffix of the raw text starting at the LAST occurrence; and on equal raw
inputs the marker selection and the subsequent page parse are identical
(the whole pipeline is a pure function). -/
theorem c5_extract_last_marker (cs : List Char) :
    (extract_final_story cs = none ↔
      ∀ i, i < cs.length → markerAtB cs i = false) ∧
    (∀ i, markerAtB cs i = true →
      (∀ j, j < cs.length → i < j → markerAtB cs j = false) →
      extract_final_story cs = some (pyStrip (cs.drop i))) ∧
    (∀ raw2, raw2 = cs →
      (extract_final_story raw2).map story_to_pages_json
        = (extract_final_story cs).map story_to_pages_json) := by
  have hms : markerStarts cs
      = (List.range' 0 cs.length).filter (fun j => markerAtB cs j) := by
    rw [markerStarts, finditerAux_eq_filter cs (cs.length + 1) 0 (by omega)]
    simp
  refine ⟨⟨?_, ?_⟩, ?_, ?_⟩
  · intro h i hi
    rw [extract_final_story] at h
    cases hlast : (markerStarts cs).getLast? with
    | none =>
      have hnil : markerStarts cs = [] := List.getLast?_eq_none_iff.mp hlast
      rw [hms] at hnil
      by_contra hcon
      rw [Bool.not_eq_false] at hcon
      have hmem : i ∈ (List.range' 0 cs.length).filter
          (fun j => markerAtB cs j) := by
        rw [List.mem_filter, List.mem_range'_1]
        exact ⟨⟨by omega, by omega⟩, by simpa using hcon⟩
      rw [hnil] at hmem
      simp at hmem
    | some v => rw [hlast] at h; cases h
  · intro h
    rw [extract_final_story]
    have hnil : markerStarts cs = [] := by
      rw [hms, List.filter_eq_nil_iff]
      intro j hj
      rw [List.mem_range'_1] at hj
      simp [h j (by omega)]
    rw [hnil]
    rfl
  · intro i hmi hmax
    have hilen : i < cs.length := by
      have hb := (markerAtB_facts cs i hmi).1
      have hL : 1 ≤ markerLen cs i := by rw [markerLen]; omega
      omega
    have hglast : (markerStarts cs).getLast? = some i := by
      rw [hms]
      apply getLast?_of_max
      · exact (pairwise_lt_range'_one cs.length 0).filter _
      · rw [List.mem_filter, List.mem_range'_1]
        exact ⟨⟨by omega, by omega⟩, by simpa using hmi⟩
      · intro x hx
        rw [List.mem_filter, List.mem_range'_1] at hx
        have hxm : markerAtB cs x = true := by simpa using hx.2
        have hxr : x < cs.length := by have := hx.1.2; omega
        by_contra hcon
        push_neg at hcon
        have hfalse := hmax x hxr hcon
        rw [hfalse] at hxm
        cases hxm
    rw [extract_final_story, hglast]
  · intro raw2 h
    rw [h]

/-- Witness for C5: a raw text with two marker occurrences; the theorem
certifies that the suffix from the SECOND (last) one is returned. -/
theorem c5_witness :
    markerAtB "x Page 1: a Page 1: b".data 12 = true ∧
    extract_final_story "x Page 1: a Page 1: b".data
      = some (pyStrip ("x Page 1: a Page 1: b".data.drop 12)) :=
  ⟨by decide,
   (c5_extract_last_marker "x Page 1: a Page 1: b".data).2.1 12 (by decide)
     (by decide)⟩

/-- Witness for C3: concrete failed image call and failed speech call. -/
theorem c3_witness :
    generate_image_for_page ⟨1, "t".data⟩ (some "style".data)
      (.error "boom".data) "data/i.webp".data = [] ∧
    (process_page_step [] ⟨1, "t".data⟩ (.error "img down".data)
      (.ok "data/a.mp3".data)).image_url = [] ∧
    (process_page_step [] ⟨1, "t".data⟩ (.error "img down".data)
      (.ok "data/a.mp3".data)).audio_url
      = to_public_media_url [] "data/a.mp3".data := by
  have h := c3_render_page_isolation ⟨1, "t".data⟩ (some "style".data)
    (.error "boom".data) "data/i.webp".data "default".data
    (fun _ _ => none) [] (.error "img down".data) (.ok "data/a.mp3".data)
  exact ⟨h.1 _ rfl, h.2.2.1 _ rfl, h.2.2.2.2.2.1 _ rfl⟩
